import Mathlib

/-!
A verification development for the run-loop core of taskwarrior-tui
(`src/app.rs`, `App::run`).  The loop turns terminal events into a typed
command stream, routes the stream through an ordered set of components,
and manages the suspend/resume/quit lifecycle.

The dispatcher state mutated by the loop (`should_quit`, `should_suspend`,
`mode`, `last_tick_key_events`) is embedded as the structure `App` below;
the immutable collaborators (`config`, the component set, the tick/frame
rates that are only forwarded to the terminal backend) are threaded as
parameters.  The unbounded mpsc command channel is embedded as a FIFO
`List Command` (send appends at the back, `try_recv` pops the front),
which is faithful because within one loop iteration every producer runs
synchronously on the single dispatcher thread.
-/

namespace TaskwarriorTui

/-- The key-event payload of `crossterm::event::KeyEvent`, opaque to the
run loop (it is only stored and compared via the keymap); embedded as a
natural-number identifier. -/
abbrev KeyEvent := Nat

/-- `Mode` from `src/app.rs` lines 13-20. -/
inductive Mode where
  | TaskReport
  | TaskContext
  | Calendar
  | Error
deriving DecidableEq, Repr

/-- Modelled from the spec: `Command` is declared in `src/command.rs`,
which is not part of the sources given; the spec describes it as the
closed tagged set {Tick, Render, Resize(width,height), Quit, Suspend,
Resume, Error(message), plus component-specific variants}.  The
component-specific variants are embedded as `Other n`. -/
inductive Command where
  | Tick
  | Render
  | Resize (x y : Nat)
  | Quit
  | Suspend
  | Resume
  | Error (msg : String)
  | Other (n : Nat)
deriving DecidableEq, Repr

/-- Modelled from the spec: `tui::Event` is declared in `src/tui.rs`,
which is not part of the sources given; the spec and the match arms of
`App::run` (lines 72-86) describe the variants relevant to the loop as
{Key(KeyEvent), Tick, Render, Resize(w,h), Quit, others}; the remaining
variants, ignored by the `_ => {}` arm, are embedded as `Other n`. -/
inductive Event where
  | Quit
  | Tick
  | Render
  | Resize (x y : Nat)
  | Key (k : KeyEvent)
  | Other (n : Nat)
deriving DecidableEq, Repr

/-- Modelled from the spec: the configuration boundary (`src/config.rs`
is not part of the sources given) exposes a read-only per-Mode table
mapping an ordered sequence of key events to a Command; `App::run` uses
it as `config.keybindings.get(&self.mode)` followed by
`keymap.get(&self.last_tick_key_events)`. -/
structure Config where
  keybindings : Mode → Option (List KeyEvent → Option Command)

/-- Modelled from the spec: the `Component` trait (`src/components.rs`
is not part of the sources given) as used by `App::run`:
`handle_events(Option<Event>) -> Result<Option<Command>>`,
`update(Command) -> Result<Option<Command>>`, and
`draw(frame, area) -> Result<()>`.  The rendering side effect of `draw`
is outside this core, so only its success or failure is embedded. -/
structure Component where
  handle_events : Option Event → Except String (Option Command)
  update : Command → Except String (Option Command)
  draw : Except String Unit

/-- The dispatcher state mutated by `App::run`: the four mutable fields
of `struct App` (`src/app.rs` lines 22-31).  `config`, `components`,
`tick_rate` and `frame_rate` are not mutated by the loop and are
threaded as parameters of the functions below. -/
structure App where
  should_quit : Bool
  should_suspend : Bool
  mode : Mode
  last_tick_key_events : List KeyEvent
deriving DecidableEq, Repr

/-- The initial dispatcher state built by `App::new`
(`src/app.rs` lines 34-48): both flags false, mode `TaskReport`,
empty key-event history. -/
def App.new : App :=
  { should_quit := false
    should_suspend := false
    mode := Mode.TaskReport
    last_tick_key_events := [] }

/-- Step 2 of the loop (`src/app.rs` lines 72-86): classify one event.
Quit/Tick/Render/Resize map directly to a command sent on the bus; a Key
event is pushed onto `last_tick_key_events` and the active mode's keymap
is consulted with the entire updated history; other events send
nothing.  Returns the updated state and the optional command sent. -/
def eventCommand (cfg : Config) (st : App) : Event → App × Option Command
  | Event.Quit => (st, some Command.Quit)
  | Event.Tick => (st, some Command.Tick)
  | Event.Render => (st, some Command.Render)
  | Event.Resize x y => (st, some (Command.Resize x y))
  | Event.Key k =>
      let hist := st.last_tick_key_events ++ [k]
      ({ st with last_tick_key_events := hist },
       match cfg.keybindings st.mode with
       | some keymap => keymap hist
       | none => none)
  | Event.Other _ => (st, none)

/-- Step 3 of the loop (`src/app.rs` lines 87-91): forward the raw event
to every component in order via `handle_events`; each returned command
is sent on the bus, in component order.  A component failure propagates
(the `?` operator). -/
def handle_events_all (comps : List Component) (e : Event) :
    Except String (List Command) :=
  match comps with
  | [] => Except.ok []
  | comp :: cs =>
      match comp.handle_events (some e) with
      | Except.error err => Except.error err
      | Except.ok r =>
          match handle_events_all cs e with
          | Except.error err => Except.error err
          | Except.ok rest =>
              match r with
              | some cmd => Except.ok (cmd :: rest)
              | none => Except.ok rest

/-- The render pass of the `Command::Render` arm (`src/app.rs` lines
105-114): every component's `draw` is invoked in order inside one
`tui.draw` frame; a draw failure is converted into a
`Command::Error("Failed to draw: ...")` sent on the bus, and the pass
continues with the remaining components.  Returns the list of each
component's draw result in order (first) and the error commands sent, in
order (second). -/
def drawPass : List Component → List (Except String Unit) × List Command
  | [] => ([], [])
  | comp :: cs =>
      let r := comp.draw
      let rest := drawPass cs
      (r :: rest.1,
       (match r with
        | Except.ok _ => []
        | Except.error e => [Command.Error ("Failed to draw: " ++ e)]) ++ rest.2)

/-- The built-in effect of one drained command: the `match command` of
`src/app.rs` lines 98-116.  Tick drains the key-event history; Quit sets
`should_quit`; Suspend sets `should_suspend`; Resume clears
`should_suspend`; Render performs the draw pass, whose error commands
are sent on the bus; every other command has no built-in effect.
Returns the updated state and the commands sent during the effect. -/
def processCommand (comps : List Component) (st : App) :
    Command → App × List Command
  | Command.Tick => ({ st with last_tick_key_events := [] }, [])
  | Command.Quit => ({ st with should_quit := true }, [])
  | Command.Suspend => ({ st with should_suspend := true }, [])
  | Command.Resume => ({ st with should_suspend := false }, [])
  | Command.Render => (st, (drawPass comps).2)
  | _ => (st, [])

/-- The per-command update fan-out (`src/app.rs` lines 117-121): every
drained command is forwarded to every component's `update` in order, and
each returned follow-up command is sent on the bus, in component
order.  A component failure propagates (the `?` operator). -/
def update_all (comps : List Component) (cmd : Command) :
    Except String (List Command) :=
  match comps with
  | [] => Except.ok []
  | comp :: cs =>
      match comp.update cmd with
      | Except.error err => Except.error err
      | Except.ok r =>
          match update_all cs cmd with
          | Except.error err => Except.error err
          | Except.ok rest =>
              match r with
              | some c => Except.ok (c :: rest)
              | none => Except.ok rest

/-- Processing of one command drained from the bus: the built-in effect
(whose sends, the render-pass error commands, come first) followed by
the update fan-out.  Returns the updated state and all commands sent
while this command was processed, in send order. -/
def drainStep (comps : List Component) (st : App) (cmd : Command) :
    Except String (App × List Command) :=
  let p := processCommand comps st cmd
  match update_all comps cmd with
  | Except.error err => Except.error err
  | Except.ok follow => Except.ok (p.1, p.2 ++ follow)

/-- The drain loop of `src/app.rs` lines 94-122: non-blocking pulls from
the front of the FIFO bus until it is empty; commands sent while a
command is processed are appended at the back and are drained within the
same call.  The source has no termination guard (a component may feed
the bus forever), so the recursion is measured by `fuel`; when fuel runs
out the untouched bus is returned as the remainder.  Returns the final
state, the trace of commands processed in order, and the remaining bus
(`[]` exactly when the drain settled). -/
def drainLoop (comps : List Component) :
    Nat → App → List Command → Except String (App × List Command × List Command)
  | 0, st, bus => Except.ok (st, [], bus)
  | _ + 1, st, [] => Except.ok (st, [], [])
  | fuel + 1, st, cmd :: rest =>
      match drainStep comps st cmd with
      | Except.error err => Except.error err
      | Except.ok r =>
          match drainLoop comps fuel r.1 (rest ++ r.2) with
          | Except.error err => Except.error err
          | Except.ok res => Except.ok (res.1, cmd :: res.2.1, res.2.2)

/-- One iteration of the main loop up to (and excluding) the loop-bottom
check (`src/app.rs` lines 71-122): if the awaited `tui.next()` yielded an
event, classify it (step 2) and forward it to the components (step 3),
sending behind any commands already in the bus; then drain the bus.
Returns the state after the drain, the trace of commands processed, and
the remaining bus. -/
def iterate (cfg : Config) (comps : List Component) (fuel : Nat)
    (st : App) (bus : List Command) (e : Option Event) :
    Except String (App × List Command × List Command) :=
  match e with
  | none => drainLoop comps fuel st bus
  | some ev =>
      let c := eventCommand cfg st ev
      match handle_events_all comps ev with
      | Except.error err => Except.error err
      | Except.ok evCmds =>
          drainLoop comps fuel c.1 (bus ++ c.2.toList ++ evCmds)

/-- The externally visible actions of the loop-bottom block, in program
order: terminal teardown (`tui.suspend`), sending `Command::Resume` on
the bus, acquiring a fresh backend (`Tui::new` plus its tick-rate and
frame-rate configuration), re-entering it (`tui.enter`), and the final
teardown (`tui.stop`) before `break`. -/
inductive TuiOp where
  | tuiSuspend
  | sendResume
  | tuiNew
  | tuiEnter
  | tuiStop
deriving DecidableEq, Repr

/-- The outcome of the loop-bottom check. -/
structure BottomResult where
  /-- `true` exactly when the loop `break`s. -/
  exitLoop : Bool
  /-- The dispatcher state carried into the next iteration (or out of
  the loop); the loop-bottom block itself never writes the flags. -/
  state : App
  /-- The bus carried into the next iteration. -/
  bus : List Command
  /-- The terminal-backend actions performed, in order. -/
  ops : List TuiOp
deriving DecidableEq, Repr

/-- The loop-bottom check (`src/app.rs` lines 123-133): if
`should_suspend` holds, tear the terminal down, send `Command::Resume`,
acquire and enter a fresh backend, and continue; else if `should_quit`
holds, stop the backend and `break`; else continue.  The flags
themselves are not written here. -/
def loopBottom (st : App) (bus : List Command) : BottomResult :=
  if st.should_suspend then
    { exitLoop := false
      state := st
      bus := bus ++ [Command.Resume]
      ops := [TuiOp.tuiSuspend, TuiOp.sendResume, TuiOp.tuiNew, TuiOp.tuiEnter] }
  else if st.should_quit then
    { exitLoop := true, state := st, bus := bus, ops := [TuiOp.tuiStop] }
  else
    { exitLoop := false, state := st, bus := bus, ops := [] }

/-! ### Interleaved state evolution

Only two places of `App::run` write the dispatcher state: the event
classification of step 2 (`eventCommand`) and the built-in effect of a
drained command (`processCommand`); components mutate only themselves.
`runOps` runs an arbitrary interleaving of such atomic steps, which is
exactly the set of state evolutions the loop can perform. -/

/-- One atomic state-touching step of the loop: classifying one event
(step 2) or applying one drained command's built-in effect (step 4). -/
inductive LoopOp where
  | ev (e : Event)
  | cmd (c : Command)
deriving DecidableEq, Repr

/-- Run a sequence of atomic loop steps on the dispatcher state. -/
def runOps (cfg : Config) (comps : List Component) : App → List LoopOp → App
  | st, [] => st
  | st, LoopOp.ev e :: ops => runOps cfg comps (eventCommand cfg st e).1 ops
  | st, LoopOp.cmd c :: ops => runOps cfg comps (processCommand comps st c).1 ops

/-- Follows the spec's words (§3, Key-event history): the history is
"appended to on every Key event, drained to empty on every Tick", so it
holds exactly the keys observed since the last processed Tick (or all
keys on top of the initial history if no Tick was processed). -/
def keysSinceLastTick (init : List KeyEvent) : List LoopOp → List KeyEvent
  | [] => init
  | LoopOp.ev (Event.Key k) :: ops => keysSinceLastTick (init ++ [k]) ops
  | LoopOp.cmd Command.Tick :: ops => keysSinceLastTick [] ops
  | _ :: ops => keysSinceLastTick init ops

/-! ### Scenario components

Concrete instances of the component boundary used by the end-to-end
scenarios of the spec (§8). -/

/-- A component that never reacts: `handle_events` and `update` return
no command and `draw` succeeds. -/
def idleComponent : Component :=
  { handle_events := fun _ => Except.ok none
    update := fun _ => Except.ok none
    draw := Except.ok () }

/-- A component for the ordering scenario: `update` answers the
`trigger` command with the follow-up command `fu` and answers every
other command with none. -/
def followComponent (trigger fu : Command) : Component :=
  { handle_events := fun _ => Except.ok none
    update := fun c => Except.ok (if c = trigger then some fu else none)
    draw := Except.ok () }

/-- A component whose `draw` fails with the message "boom". -/
def brokenComponent : Component :=
  { handle_events := fun _ => Except.ok none
    update := fun _ => Except.ok none
    draw := Except.error "boom" }

/-! ### Helper lemmas -/

/-- Components whose `handle_events` always returns no command
contribute nothing to the bus in step 3. -/
theorem handle_events_all_of_none {comps : List Component}
    (h : ∀ c ∈ comps, ∀ e, c.handle_events e = Except.ok none) (e : Event) :
    handle_events_all comps e = Except.ok [] := by
  induction comps with
  | nil => rfl
  | cons c cs ih =>
      simp only [handle_events_all, h c (List.mem_cons_self c cs),
        ih fun c hc e => h c (List.mem_cons_of_mem _ hc) e]

/-- Components whose `update` always returns no command contribute no
follow-ups to the bus in step 4. -/
theorem update_all_of_none {comps : List Component}
    (h : ∀ c ∈ comps, ∀ cm, c.update cm = Except.ok none) (cmd : Command) :
    update_all comps cmd = Except.ok [] := by
  induction comps with
  | nil => rfl
  | cons c cs ih =>
      simp only [update_all, h c (List.mem_cons_self c cs),
        ih fun c hc cm => h c (List.mem_cons_of_mem _ hc) cm]

/-- Every component's `draw` is invoked in the render pass, in order. -/
theorem drawPass_fst (comps : List Component) :
    (drawPass comps).1 = comps.map Component.draw := by
  induction comps with
  | nil => rfl
  | cons c cs ih => simp [drawPass, ih]

/-- A render pass over components that all draw successfully sends no
error command. -/
theorem drawPass_snd_of_ok {comps : List Component}
    (h : ∀ c ∈ comps, c.draw = Except.ok ()) : (drawPass comps).2 = [] := by
  induction comps with
  | nil => rfl
  | cons c cs ih =>
      simp [drawPass, h c (List.mem_cons_self c cs),
        ih fun c hc => h c (List.mem_cons_of_mem _ hc)]

/-- The error commands of a render pass over concatenated component
lists are the concatenated error commands. -/
theorem drawPass_snd_append (xs ys : List Component) :
    (drawPass (xs ++ ys)).2 = (drawPass xs).2 ++ (drawPass ys).2 := by
  induction xs with
  | nil => rfl
  | cons c cs ih => simp [drawPass, ih]

/-- The built-in effect of a drained command sets `should_quit` exactly
when the command is `Quit`, and otherwise leaves it unchanged. -/
theorem processCommand_should_quit (comps : List Component) (st : App)
    (c : Command) :
    (processCommand comps st c).1.should_quit
      = (st.should_quit || decide (c = Command.Quit)) := by
  cases c <;> simp [processCommand]

/-- Event classification never writes `should_quit`. -/
theorem eventCommand_should_quit (cfg : Config) (st : App) (e : Event) :
    (eventCommand cfg st e).1.should_quit = st.should_quit := by
  cases e <;> simp [eventCommand]

/-- The built-in effect of a drained command never writes the key-event
history except for `Tick`, which empties it. -/
theorem processCommand_history (comps : List Component) (st : App)
    (c : Command) :
    (processCommand comps st c).1.last_tick_key_events
      = if c = Command.Tick then [] else st.last_tick_key_events := by
  cases c <;> simp [processCommand]

/-- Event classification appends exactly the key of a Key event to the
history and leaves it unchanged for every other event. -/
theorem eventCommand_history (cfg : Config) (st : App) (e : Event) :
    (eventCommand cfg st e).1.last_tick_key_events
      = match e with
        | Event.Key k => st.last_tick_key_events ++ [k]
        | _ => st.last_tick_key_events := by
  cases e <;> simp [eventCommand]

/-! ### Claims -/

/-- Claim C5: processing a Tick command always and only clears the
key-event history: after a Tick command is handled the history is empty,
no command is sent by the built-in handler, and `should_quit`,
`should_suspend` and `mode` are unchanged. -/
theorem tick_clears_history_only (comps : List Component) (st : App) :
    processCommand comps st Command.Tick
        = ({ st with last_tick_key_events := [] }, [])
      ∧ (processCommand comps st Command.Tick).1.last_tick_key_events = []
      ∧ (processCommand comps st Command.Tick).1.should_quit = st.should_quit
      ∧ (processCommand comps st Command.Tick).1.should_suspend
          = st.should_suspend
      ∧ (processCommand comps st Command.Tick).1.mode = st.mode := by
  refine ⟨rfl, rfl, rfl, rfl, rfl⟩

/-- Claim C7: a Key event whose resulting whole history matches no entry
of the active mode's keymap (or whose mode has no keymap table) sends no
command from step 2; the key is still appended to the history, and step 2
appends to the history whether or not a match occurs, never clearing
it. -/
theorem unmatched_key_sends_no_command (cfg : Config) (st : App)
    (k : KeyEvent)
    (h : ∀ keymap, cfg.keybindings st.mode = some keymap →
      keymap (st.last_tick_key_events ++ [k]) = none) :
    (eventCommand cfg st (Event.Key k)).2 = none
      ∧ (eventCommand cfg st (Event.Key k)).1
          = { st with
                last_tick_key_events := st.last_tick_key_events ++ [k] }
      ∧ ∀ cfg' : Config,
          (eventCommand cfg' st (Event.Key k)).1.last_tick_key_events
            = st.last_tick_key_events ++ [k] := by
  refine ⟨?_, rfl, fun cfg' => rfl⟩
  simp only [eventCommand]
  cases hk : cfg.keybindings st.mode with
  | none => rfl
  | some keymap => simpa using h keymap hk

/-- Witness for `unmatched_key_sends_no_command` at a mode with no
keymap table. -/
theorem unmatched_key_sends_no_command_witness :
    (eventCommand ⟨fun _ => none⟩ App.new (Event.Key 0)).2 = none
      ∧ (eventCommand ⟨fun _ => none⟩ App.new (Event.Key 0)).1
          = { App.new with last_tick_key_events := [0] }
      ∧ ∀ cfg' : Config,
          (eventCommand cfg' App.new (Event.Key 0)).1.last_tick_key_events
            = [0] := by
  have h := unmatched_key_sends_no_command ⟨fun _ => none⟩ App.new 0
    (fun keymap hk => by cases hk)
  simpa [App.new] using h

/-- Claim C8: in the loop-bottom check suspend takes precedence over
quit: the loop exits exactly when `should_suspend` is false and
`should_quit` is true, and whenever `should_suspend` is true (even
together with `should_quit`) the suspend transition is performed and the
loop continues. -/
theorem loop_bottom_suspend_precedes_quit (st : App) (bus : List Command) :
    ((loopBottom st bus).exitLoop = true
        ↔ st.should_suspend = false ∧ st.should_quit = true)
      ∧ (st.should_suspend = true →
          loopBottom st bus
            = { exitLoop := false
                state := st
                bus := bus ++ [Command.Resume]
                ops := [TuiOp.tuiSuspend, TuiOp.sendResume, TuiOp.tuiNew,
                  TuiOp.tuiEnter] }) := by
  constructor
  · cases hs : st.should_suspend <;> cases hq : st.should_quit <;>
      simp [loopBottom, hs, hq]
  · intro hs
    simp [loopBottom, hs]

/-- Witness for `loop_bottom_suspend_precedes_quit` at a state with both
flags set: the suspend transition wins. -/
theorem loop_bottom_suspend_precedes_quit_witness :
    loopBottom { App.new with should_quit := true, should_suspend := true } []
      = { exitLoop := false
          state := { App.new with should_quit := true, should_suspend := true }
          bus := [Command.Resume]
          ops := [TuiOp.tuiSuspend, TuiOp.sendResume, TuiOp.tuiNew,
            TuiOp.tuiEnter] } :=
  (loop_bottom_suspend_precedes_quit
    { App.new with should_quit := true, should_suspend := true } []).2 rfl

/-- Claim C9: processing a Resume command is idempotent on
`should_suspend`: it always leaves `should_suspend` false, applying it
when `should_suspend` is already false changes nothing, and applying it
twice equals applying it once. -/
theorem resume_idempotent (comps : List Component) (st : App) :
    (processCommand comps st Command.Resume).1.should_suspend = false
      ∧ (st.should_suspend = false →
          (processCommand comps st Command.Resume).1 = st)
      ∧ processCommand comps (processCommand comps st Command.Resume).1
            Command.Resume
          = processCommand comps st Command.Resume := by
  refine ⟨rfl, ?_, rfl⟩
  intro h
  cases st
  simp_all [processCommand]

/-- Witness for `resume_idempotent` at the initial state, whose
`should_suspend` is already false. -/
theorem resume_idempotent_witness :
    (processCommand [] App.new Command.Resume).1 = App.new :=
  (resume_idempotent [] App.new).2.1 rfl

/-- Claim C6: the key-event history is appended to exactly on every Key
event and drained to empty exactly on every Tick command, so after any
interleaving of loop steps the history equals the keys observed since
the last processed Tick (hence it contains at most those keys). -/
theorem history_is_keys_since_last_tick (cfg : Config)
    (comps : List Component) (st : App) (ops : List LoopOp) :
    (runOps cfg comps st ops).last_tick_key_events
      = keysSinceLastTick st.last_tick_key_events ops := by
  induction ops generalizing st with
  | nil => rfl
  | cons op ops ih =>
      cases op with
      | ev e => cases e <;> simp [runOps, keysSinceLastTick, eventCommand, ih]
      | cmd c =>
          cases c <;> simp [runOps, keysSinceLastTick, processCommand, ih]

/-- Claim C10: `should_quit` is monotone within the run loop: it starts
false in `App.new`, the only command whose built-in effect writes it is
`Quit` (which sets it to true), event classification never writes it,
and once true it stays true over any interleaving of loop steps. -/
theorem should_quit_monotone (cfg : Config) (comps : List Component) :
    App.new.should_quit = false
      ∧ (∀ st c, (processCommand comps st c).1.should_quit
          = (st.should_quit || decide (c = Command.Quit)))
      ∧ (∀ st e, (eventCommand cfg st e).1.should_quit = st.should_quit)
      ∧ ∀ st ops, st.should_quit = true →
          (runOps cfg comps st ops).should_quit = true := by
  refine ⟨rfl, processCommand_should_quit comps, eventCommand_should_quit cfg,
    ?_⟩
  intro st ops h
  induction ops generalizing st with
  | nil => exact h
  | cons op ops ih =>
      cases op with
      | ev e =>
          simp only [runOps]
          exact ih _ (by rw [eventCommand_should_quit]; exact h)
      | cmd c =>
          simp only [runOps]
          exact ih _ (by rw [processCommand_should_quit, h, Bool.true_or])

/-- Witness for `should_quit_monotone`: from a state with `should_quit`
set, a Tick command and a Render event leave it set. -/
theorem should_quit_monotone_witness :
    (runOps ⟨fun _ => none⟩ [] { App.new with should_quit := true }
        [LoopOp.cmd Command.Tick, LoopOp.ev Event.Render]).should_quit
      = true :=
  (should_quit_monotone ⟨fun _ => none⟩ []).2.2.2
    { App.new with should_quit := true }
    [LoopOp.cmd Command.Tick, LoopOp.ev Event.Render] rfl

/-- Claim C2: with components [A, B, C] each answering the same drained
command `Other 0` with a distinct follow-up (`Other 1`, `Other 2`,
`Other 3`), the three follow-ups are enqueued in registration order
A, B, C (the `update_all` conjunct), and the drain keeps pulling until
the bus is empty, so each follow-up is itself processed — and hence, by
`drainStep`, delivered to `update` of all three components — within the
same iteration: the trace is [Other 0, Other 1, Other 2, Other 3] and
the remaining bus is empty, for any dispatcher state. -/
theorem update_follow_ups_same_iteration (st : App) :
    update_all
        [followComponent (Command.Other 0) (Command.Other 1),
          followComponent (Command.Other 0) (Command.Other 2),
          followComponent (Command.Other 0) (Command.Other 3)]
        (Command.Other 0)
      = Except.ok [Command.Other 1, Command.Other 2, Command.Other 3]
      ∧ drainLoop
          [followComponent (Command.Other 0) (Command.Other 1),
            followComponent (Command.Other 0) (Command.Other 2),
            followComponent (Command.Other 0) (Command.Other 3)]
          4 st [Command.Other 0]
        = Except.ok
            (st,
              [Command.Other 0, Command.Other 1, Command.Other 2,
                Command.Other 3],
              []) := by
  exact ⟨rfl, rfl⟩

/-- Claim C3: from a state with `should_suspend` false, a Key event that
the active mode's keymap (on the whole updated history) maps to `Quit`,
with components that return no commands, makes `should_quit` true during
that iteration's drain; the trace of the drain is exactly [Quit] — no
Render is processed after the Quit — and the loop-bottom check exits the
loop. -/
theorem quit_key_exits_without_render (cfg : Config)
    (comps : List Component) (st : App) (k : KeyEvent)
    (keymap : List KeyEvent → Option Command)
    (hkm : cfg.keybindings st.mode = some keymap)
    (hq : keymap (st.last_tick_key_events ++ [k]) = some Command.Quit)
    (hbenign : ∀ c ∈ comps, (∀ e, c.handle_events e = Except.ok none)
      ∧ ∀ cm, c.update cm = Except.ok none)
    (hs : st.should_suspend = false) :
    iterate cfg comps 2 st [] (some (Event.Key k))
        = Except.ok
            ({ st with
                should_quit := true
                last_tick_key_events := st.last_tick_key_events ++ [k] },
              [Command.Quit], [])
      ∧ (∀ c ∈ [Command.Quit], c ≠ Command.Render)
      ∧ (loopBottom
            { st with
                should_quit := true
                last_tick_key_events := st.last_tick_key_events ++ [k] }
            []).exitLoop = true := by
  have h1 : handle_events_all comps (Event.Key k) = Except.ok [] :=
    handle_events_all_of_none (fun c hc => (hbenign c hc).1) _
  have h2 : update_all comps Command.Quit = Except.ok [] :=
    update_all_of_none (fun c hc => (hbenign c hc).2) _
  refine ⟨?_, by simp, by simp [loopBottom, hs]⟩
  simp [iterate, eventCommand, hkm, hq, h1, drainLoop, drainStep,
    processCommand, h2, Except.bind]

/-- Witness for `quit_key_exits_without_render`: one idle component, a
keymap sending the single-key history [0] to Quit, the initial state. -/
theorem quit_key_exits_without_render_witness :
    iterate
          ⟨fun _ => some fun hist =>
            if hist = [0] then some Command.Quit else none⟩
          [idleComponent] 2 App.new [] (some (Event.Key 0))
        = Except.ok
            ({ App.new with should_quit := true, last_tick_key_events := [0] },
              [Command.Quit], [])
      ∧ (∀ c ∈ [Command.Quit], c ≠ Command.Render)
      ∧ (loopBottom
            { App.new with should_quit := true, last_tick_key_events := [0] }
            []).exitLoop = true := by
  have h := quit_key_exits_without_render
    ⟨fun _ => some fun hist => if hist = [0] then some Command.Quit else none⟩
    [idleComponent] App.new 0
    (fun hist => if hist = [0] then some Command.Quit else none)
    rfl (by simp [App.new])
    (by
      intro c hc
      simp only [List.mem_singleton] at hc
      subst hc
      exact ⟨fun _ => rfl, fun _ => rfl⟩)
    rfl
  simpa [App.new] using h

/-- Claim C4: if exactly one component's `draw` fails during a render
pass, exactly one `Command.Error` is enqueued, every component —
including those after the failing one — still has its `draw` invoked in
order, and the `Render` arm returns normally with the state unchanged
(the failure never propagates as a process-level error). -/
theorem draw_failure_single_error (pre post : List Component)
    (bad : Component) (msg : String) (st : App)
    (hpre : ∀ c ∈ pre, c.draw = Except.ok ())
    (hpost : ∀ c ∈ post, c.draw = Except.ok ())
    (hbad : bad.draw = Except.error msg) :
    (drawPass (pre ++ bad :: post)).2
        = [Command.Error ("Failed to draw: " ++ msg)]
      ∧ (drawPass (pre ++ bad :: post)).1
          = (pre ++ bad :: post).map Component.draw
      ∧ processCommand (pre ++ bad :: post) st Command.Render
          = (st, [Command.Error ("Failed to draw: " ++ msg)]) := by
  have h2 : (drawPass (pre ++ bad :: post)).2
      = [Command.Error ("Failed to draw: " ++ msg)] := by
    rw [drawPass_snd_append, drawPass_snd_of_ok hpre]
    simp [drawPass, hbad, drawPass_snd_of_ok hpost]
  exact ⟨h2, drawPass_fst _, by simp [processCommand, h2]⟩

/-- Witness for `draw_failure_single_error`: an idle component on each
side of `brokenComponent`. -/
theorem draw_failure_single_error_witness :
    (drawPass [idleComponent, brokenComponent, idleComponent]).2
        = [Command.Error "Failed to draw: boom"]
      ∧ (drawPass [idleComponent, brokenComponent, idleComponent]).1
          = [Except.ok (), Except.error "boom", Except.ok ()]
      ∧ processCommand [idleComponent, brokenComponent, idleComponent]
            App.new Command.Render
          = (App.new, [Command.Error "Failed to draw: boom"]) := by
  have h := draw_failure_single_error [idleComponent] [idleComponent]
    brokenComponent "boom" App.new
    (by
      intro c hc
      simp only [List.mem_singleton] at hc
      subst hc
      rfl)
    (by
      intro c hc
      simp only [List.mem_singleton] at hc
      subst hc
      rfl)
    rfl
  simpa [idleComponent, brokenComponent] using h

/-- Claim C1 counterexample: take the suspended state (the state right
after a Suspend command was drained).  The loop-bottom block performs
the suspend transition and continues, but the state it carries into
the next iteration — whose first action is the blocking
`tui.next().await`, before any command is drained — still has
`should_suspend = true`, and the enqueued Resume is still sitting
unprocessed in the bus.  So `should_suspend` does not become false
before the next event is awaited, contrary to the claim. -/
theorem suspend_flag_true_at_next_await :
    (loopBottom { App.new with should_suspend := true } []).exitLoop = false
      ∧ ((loopBottom { App.new with should_suspend := true } []).state
          ).should_suspend = true
      ∧ (loopBottom { App.new with should_suspend := true } []).bus
          = [Command.Resume] :=
  ⟨rfl, rfl, rfl⟩

/-- Claim C1 as amended: when `should_suspend` is true after the drain,
the loop-bottom performs terminal teardown, enqueues a Resume command,
re-acquires and enters a fresh backend, and continues with
`should_suspend` still true; the Resume is then the first command
drained in the next iteration — after the next event-retrieval call —
so `should_suspend` becomes false before that iteration's loop-bottom
check (shown here with a Tick as the next event and components that
return no commands). -/
theorem suspend_transition_resume_drained_next_iteration (cfg : Config)
    (comps : List Component) (st : App)
    (hs : st.should_suspend = true)
    (hbenign : ∀ c ∈ comps, (∀ e, c.handle_events e = Except.ok none)
      ∧ ∀ cm, c.update cm = Except.ok none) :
    loopBottom st []
        = { exitLoop := false
            state := st
            bus := [Command.Resume]
            ops := [TuiOp.tuiSuspend, TuiOp.sendResume, TuiOp.tuiNew,
              TuiOp.tuiEnter] }
      ∧ ((loopBottom st []).state).should_suspend = true
      ∧ iterate cfg comps 2 st [Command.Resume] (some Event.Tick)
          = Except.ok
              ({ st with should_suspend := false, last_tick_key_events := [] },
                [Command.Resume, Command.Tick], [])
      ∧ App.should_suspend
          { st with should_suspend := false, last_tick_key_events := [] }
          = false := by
  have h1 : handle_events_all comps Event.Tick = Except.ok [] :=
    handle_events_all_of_none (fun c hc => (hbenign c hc).1) _
  have h2 : update_all comps Command.Resume = Except.ok [] :=
    update_all_of_none (fun c hc => (hbenign c hc).2) _
  have h3 : update_all comps Command.Tick = Except.ok [] :=
    update_all_of_none (fun c hc => (hbenign c hc).2) _
  refine ⟨by simp [loopBottom, hs], by simp [loopBottom, hs], ?_, rfl⟩
  simp [iterate, eventCommand, h1, drainLoop, drainStep, processCommand,
    h2, h3, Except.bind]

/-- Witness for `suspend_transition_resume_drained_next_iteration`: one
idle component and the initial state with `should_suspend` set. -/
theorem suspend_transition_resume_drained_witness :
    loopBottom { App.new with should_suspend := true } []
        = { exitLoop := false
            state := { App.new with should_suspend := true }
            bus := [Command.Resume]
            ops := [TuiOp.tuiSuspend, TuiOp.sendResume, TuiOp.tuiNew,
              TuiOp.tuiEnter] }
      ∧ ((loopBottom { App.new with should_suspend := true } []).state
          ).should_suspend = true
      ∧ iterate ⟨fun _ => none⟩ [idleComponent] 2
            { App.new with should_suspend := true } [Command.Resume]
            (some Event.Tick)
          = Except.ok (App.new, [Command.Resume, Command.Tick], [])
      ∧ App.should_suspend App.new = false := by
  have h := suspend_transition_resume_drained_next_iteration
    ⟨fun _ => none⟩ [idleComponent] { App.new with should_suspend := true }
    rfl
    (by
      intro c hc
      simp only [List.mem_singleton] at hc
      subst hc
      exact ⟨fun _ => rfl, fun _ => rfl⟩)
  simpa [App.new] using h

end TaskwarriorTui
